import Mathlib

/-!
# Joanna journaling assistant — verification of the agent orchestration core

A shallow embedding, in Lean 4, of the turn-processing pipeline of the
Joanna conversational journaling assistant (TypeScript source under
`src/`): the agent orchestrator (`agent.service.ts`), the memory
synthesis stage (`memory-synthesis.service.ts` and its variant in
`unnamed/part_009`), the memory retrieval stage (`unnamed/part_004`),
the in-memory Memory Backend double (`mock-backboard.service.ts`), and
the conversation store (`conversation.service.ts`).

Conventions of the embedding:
* JavaScript numbers are modelled as exact rationals (`ℚ`); integer
  ids and timestamps as `Nat`.  `Math.round` is `⌊x + 1/2⌋`, the JS
  rounding rule for non-negative arguments.
* Fallible/`async` operations return `Except String α`; a thrown or
  rejected promise is `.error`.  External collaborators (the Backboard
  backend, the SQL database, `JSON.parse`) enter as oracle parameters:
  the embedding fixes only what the repository's own code does with
  their answers.
* `Map` objects are association lists (`List (key × value)`) with
  JS `Map.set` replace-or-append semantics.
* Wall-clock timestamps (`new Date()`) are passed in explicitly where
  a claim needs them and omitted where no claim observes them.
-/

/-! ## JavaScript primitive semantics -/

/-- JS `Math.max(0, Math.min(1, q))`: clamp a number into `[0, 1]`. -/
def clamp01 (q : ℚ) : ℚ := max 0 (min 1 q)

/-- JS `Math.round` for the arguments that occur here (non-negative):
round half up, `⌊q + 1/2⌋`. -/
def jsRound (q : ℚ) : ℤ := ⌊q + 1/2⌋

/-- JS `c || 0.5` on a number field that may be absent: `undefined`,
`NaN` (both modelled `none`) and `0` are falsy and give the default. -/
def jsOrHalf (c : Option ℚ) : ℚ :=
  match c with
  | none => 1/2
  | some q => if q = 0 then 1/2 else q

/-- JS `c || []` on an array field that may be absent (`undefined` and
`null` are falsy; an empty array is truthy and kept). -/
def jsOrNil (c : Option (List α)) : List α :=
  match c with
  | none => []
  | some l => l

/-- Worker for `jsSplitWs`: first argument is the remaining input, the
second the characters of the current piece, reversed. -/
def splitWsAux : List Char → List Char → List (List Char)
  | [], acc => [acc.reverse]
  | c :: cs, acc =>
    if c.isWhitespace then
      acc.reverse :: splitWsAux (cs.dropWhile Char.isWhitespace) []
    else
      splitWsAux cs (c :: acc)
termination_by l _ => l.length
decreasing_by
  · have h := (List.dropWhile_sublist (l := cs) (p := Char.isWhitespace)).length_le
    simp only [List.length_cons]
    omega
  · simp only [List.length_cons]
    omega

/-- JS `s.split(/\s+/)`: the pieces of `s` between maximal runs of
whitespace.  A leading or trailing run contributes an empty piece, and
`"".split(/\s+/)` is `[""]`, exactly as in JS. -/
def jsSplitWs (s : String) : List String :=
  (splitWsAux s.toList []).map (fun cs => String.mk cs)

/-- Association-list lookup, modelling JS `Map.get` (`none` = `undefined`). -/
def mapGet (l : List (String × β)) (k : String) : Option β :=
  (l.find? (fun p => p.1 == k)).map (fun p => p.2)

/-- Association-list update, modelling JS `Map.set`: replace the value
under an existing key, else append the binding. -/
def mapSet : List (String × β) → String → β → List (String × β)
  | [], k, v => [(k, v)]
  | (k', v') :: t, k, v =>
    if k' == k then (k, v) :: t else (k', v') :: mapSet t k v

/-- JS `Map.has`. -/
def mapHas (l : List (String × β)) (k : String) : Bool :=
  l.any (fun p => p.1 == k)

/-! ## Core data types (`src/src/server/types/index.ts`, extended with the
termination-signal fields that `agent.service.ts` consumes) -/

/-- A memory extracted by synthesis.  `category` stays a `String`: the
source only casts (`m.category as MemoryCategory`) after checking
membership in the fixed list, it never converts. -/
structure ExtractedMemory where
  content : String
  category : String
  confidence : ℚ
deriving DecidableEq

/-- A durable memory as retrieved from the Memory Backend. -/
structure RetrievedMemory where
  id : String
  content : String
  relevanceScore : ℚ
  createdAt : Nat
deriving DecidableEq

/-- A conversation message as the services see it. -/
structure Message where
  id : String
  role : String
  content : String
  createdAt : Nat
deriving DecidableEq

/-- The synthesis stage's result, in the extended shape that
`agent.service.ts` (its inline structural types and `processMessage`)
and the `agent.service.test.ts` mocks use: the four base fields of
`types/index.ts` plus `previousTopicsToRevisit`, `shouldTerminate`,
`terminationReason` and `isMinimalResponse`. -/
structure SynthesisResult where
  extractedMemories : List ExtractedMemory
  followUpQuestions : List String
  elaborationTopics : List String
  previousTopicsToRevisit : List String
  confidence : ℚ
  shouldTerminate : Bool
  terminationReason : Option String
  isMinimalResponse : Bool
deriving DecidableEq

/-- Agent planning state returned for debugging (`types/index.ts`). -/
structure AgentPlanningState where
  extractedMemories : List ExtractedMemory
  followUpQuestions : List String
  retrievedContext : List RetrievedMemory
  responseStrategy : String
deriving DecidableEq

/-- The agent's response envelope (`types/index.ts` plus the
termination fields `processMessage` returns; the wall-clock
`timestamp` field is omitted, no claim observes it). -/
structure AgentResponse where
  content : String
  planningState : AgentPlanningState
  shouldTerminate : Bool
  terminationReason : Option String
deriving DecidableEq

/-! ## AgentService (`src/src/server/services/agent.service.ts`) -/

namespace AgentService

/-- `AgentService.inferResponseStrategy` (agent.service.ts lines
319–359): first-match priority over the synthesis result and the
retrieved context. -/
def inferResponseStrategy (synthesisResult : SynthesisResult)
    (retrievedContext : List RetrievedMemory) : String :=
  if synthesisResult.shouldTerminate then
    "conversation_closing"
  else if synthesisResult.isMinimalResponse then
    if synthesisResult.previousTopicsToRevisit.length > 0 then
      "topic_transition"
    else
      "minimal_response_handling"
  else if retrievedContext.length > 0 then
    "contextual_follow_up"
  else if synthesisResult.followUpQuestions.length > 0 then
    "elaboration_prompt"
  else if synthesisResult.extractedMemories.any (fun m => m.category == "feeling") then
    "emotional_support"
  else if synthesisResult.extractedMemories.any (fun m => m.category == "goal") then
    "goal_tracking"
  else
    "general_journaling"

/-- `AgentService.buildAugmentedPrompt` (agent.service.ts lines
243–314): the raw user message followed by the internal-context block. -/
def buildAugmentedPrompt (userMessage : String)
    (synthesisResult : SynthesisResult)
    (retrievedContext : List RetrievedMemory) : String :=
  let hasContext := retrievedContext.length > 0 ||
    synthesisResult.followUpQuestions.length > 0 ||
    synthesisResult.previousTopicsToRevisit.length > 0 ||
    synthesisResult.isMinimalResponse ||
    synthesisResult.shouldTerminate
  let parts : List String :=
    [userMessage] ++
    (if hasContext then
      ["\n\n---",
       "(Internal context for response planning - do not mention explicitly)"] ++
      (if synthesisResult.shouldTerminate then
        ["\n⚠️ User appears to want to END the conversation. Give a warm closing response."]
      else []) ++
      (if synthesisResult.isMinimalResponse && !synthesisResult.shouldTerminate then
        ["\n⚠️ User gave a minimal response. Either:",
         "- Ask ONE more follow-up on the current topic, OR",
         "- Transition to a different topic from the suggestions below, OR",
         "- Offer them a graceful way to end if they seem done"]
      else []) ++
      (if retrievedContext.length > 0 then
        "\nRelevant memories from past conversations:" ::
          (retrievedContext.take 3).map (fun m => "- " ++ m.content)
      else []) ++
      (if synthesisResult.followUpQuestions.length > 0 then
        "\nPotential follow-up questions for current topic:" ::
          (synthesisResult.followUpQuestions.take 2).map (fun q => "- " ++ q)
      else []) ++
      (if synthesisResult.elaborationTopics.length > 0 then
        "\nTopics that could be elaborated:" ::
          (synthesisResult.elaborationTopics.take 2).map (fun t => "- " ++ t)
      else []) ++
      (if synthesisResult.previousTopicsToRevisit.length > 0 then
        "\nTopics from earlier that could be revisited (if current topic stalls):" ::
          (synthesisResult.previousTopicsToRevisit.take 2).map (fun t => "- " ++ t)
      else [])
    else [])
  String.intercalate "\n" parts

/-- One turn's external world, as `processMessage` consumes it: the
thread-id lookup's answer, the recent context, the outcomes of the
synthesis and retrieval stages (both total by design, claims C4/C6),
and the outcomes of the fallible backend and database calls. -/
structure AgentEnv where
  backboardThreadId : Option String
  recentContext : List Message
  synthesisResult : SynthesisResult
  retrievedContext : List RetrievedMemory
  /-- Outcome of `Promise.all` over the explicit `createMemory` calls
  of step 4 (only consulted when there are extracted memories). -/
  createMemoriesOutcome : Except String Unit
  /-- `backboardService.addMessage`: thread id and augmented prompt in,
  assistant reply content out. -/
  backendReply : String → String → Except String String
  persistUserOutcome : Except String Unit
  persistAssistantOutcome : Except String Unit

/-- `AgentService.processMessage` (agent.service.ts lines 37–167): the
strictly sequential turn pipeline.  Each awaited collaborator call is
read off the environment; everything between the calls is the
repository's own code. -/
def processMessage (env : AgentEnv) (userMessage : String) :
    Except String AgentResponse :=
  match env.backboardThreadId with
  | none => .error "Conversation not found"
  | some threadId =>
    let synthesisResult := env.synthesisResult
    let retrievedContext := env.retrievedContext
    let storeOutcome : Except String Unit :=
      if synthesisResult.extractedMemories.length > 0 then
        env.createMemoriesOutcome
      else
        .ok ()
    match storeOutcome with
    | .error e => .error e
    | .ok _ =>
      let augmentedPrompt := buildAugmentedPrompt userMessage synthesisResult retrievedContext
      match env.backendReply threadId augmentedPrompt with
      | .error e => .error e
      | .ok responseContent =>
        match env.persistUserOutcome with
        | .error e => .error e
        | .ok _ =>
          match env.persistAssistantOutcome with
          | .error e => .error e
          | .ok _ =>
            let planningState : AgentPlanningState :=
              { extractedMemories := synthesisResult.extractedMemories
                followUpQuestions := synthesisResult.followUpQuestions
                retrievedContext := retrievedContext
                responseStrategy := inferResponseStrategy synthesisResult retrievedContext }
            let shouldTerminate := synthesisResult.shouldTerminate ||
              (synthesisResult.isMinimalResponse &&
                synthesisResult.followUpQuestions.length == 0 &&
                synthesisResult.previousTopicsToRevisit.length == 0)
            let terminationReason :=
              if synthesisResult.shouldTerminate then
                synthesisResult.terminationReason
              else if shouldTerminate then
                some "no_new_info"
              else
                none
            .ok { content := responseContent
                  planningState := planningState
                  shouldTerminate := shouldTerminate
                  terminationReason := terminationReason }

end AgentService

/-! ## MemorySynthesisService
(`src/src/server/services/memory-synthesis.service.ts`, and the variant
in `src/unnamed/part_009`) -/

/-- The raw per-memory entry of the synthesis LLM's JSON
(`SynthesisResponse.extractedMemories[i]`); `confidence` may be absent
or `NaN` (both `none`). -/
structure RawExtractedMemory where
  content : String
  category : String
  confidence : Option ℚ
deriving DecidableEq

/-- The `SynthesisResponse` JSON shape; each field may be absent
(`parsed.x || default` in the source). -/
structure SynthesisResponse where
  extractedMemories : Option (List RawExtractedMemory)
  followUpQuestions : Option (List String)
  elaborationTopics : Option (List String)
  confidence : Option ℚ
deriving DecidableEq

/-- The four-field `SynthesisResult` of `types/index.ts`, as the two
synthesis-service files in the repository construct it (named
`SynthesisOutput` here because the extended shape above keeps the
source name). -/
structure SynthesisOutput where
  extractedMemories : List ExtractedMemory
  followUpQuestions : List String
  elaborationTopics : List String
  confidence : ℚ
deriving DecidableEq

namespace MemorySynthesisService

/-- The fixed category enum (`memory-synthesis.service.ts` lines 135–142). -/
def validCategories : List String :=
  ["goal", "event", "feeling", "person", "plan", "reflection"]

/-- Validation step of `MemorySynthesisService.parseResponse` in
`src/src/server/services/memory-synthesis.service.ts` (lines 132–163),
applied to the already-JSON-parsed response: filter the extracted
memories (truthy content, category in the fixed enum), clamp each
confidence into `[0,1]` and then scale it with
`Math.round(· * 100)`, and default absent list fields to `[]`. -/
def parseResponse (parsed : SynthesisResponse) : SynthesisOutput :=
  { extractedMemories :=
      ((jsOrNil parsed.extractedMemories).filter
        (fun m => m.content != "" && validCategories.contains m.category)).map
        (fun m =>
          { content := m.content
            category := m.category
            confidence := (jsRound (clamp01 (jsOrHalf m.confidence) * 100) : ℚ) })
    followUpQuestions := jsOrNil parsed.followUpQuestions
    elaborationTopics := jsOrNil parsed.elaborationTopics
    confidence := (jsRound (clamp01 (jsOrHalf parsed.confidence) * 100) : ℚ) }

/-- Validation step of `MemorySynthesisService.parseResponse` in the
variant `src/unnamed/part_009` (lines 126–157): identical filter, but
the clamped confidence is stored directly, without the `× 100` scaling. -/
def parseResponseAlt (parsed : SynthesisResponse) : SynthesisOutput :=
  { extractedMemories :=
      ((jsOrNil parsed.extractedMemories).filter
        (fun m => m.content != "" && validCategories.contains m.category)).map
        (fun m =>
          { content := m.content
            category := m.category
            confidence := clamp01 (jsOrHalf m.confidence) })
    followUpQuestions := jsOrNil parsed.followUpQuestions
    elaborationTopics := jsOrNil parsed.elaborationTopics
    confidence := clamp01 (jsOrHalf parsed.confidence) }

/-- Index of the last occurrence of `c` in `cs`. -/
def lastIdxOf (cs : List Char) (c : Char) : Option Nat :=
  match cs.reverse.findIdx? (fun x => x == c) with
  | none => none
  | some k => some (cs.length - 1 - k)

/-- JS `content.match(/\x7b[\s\S]*\x7d/)`: the (greedy) match runs from
the first opening brace to the last closing brace, provided the latter
comes strictly after the former; otherwise there is no match. -/
def extractJson (s : String) : Option String :=
  let cs := s.toList
  match cs.findIdx? (fun c => c == '{'), lastIdxOf cs '}' with
  | some i, some j =>
    if i < j then some (String.mk ((cs.drop i).take (j - i + 1))) else none
  | _, _ => none

/-- Modelled from the spec: the canonical empty `SynthesisResult` —
"all lists empty, confidence 0, shouldTerminate=false,
isMinimalResponse=false" (spec §4.3).  The four base fields are those
of `getEmptyResult` in `memory-synthesis.service.ts` (lines 173–180);
the termination-signal fields belong to the synthesis variant that
`agent.service.ts` consumes, which is not among the repository's
files, and follow the spec's words. -/
def getEmptyResult : SynthesisResult :=
  { extractedMemories := []
    followUpQuestions := []
    elaborationTopics := []
    previousTopicsToRevisit := []
    confidence := 0
    shouldTerminate := false
    terminationReason := none
    isMinimalResponse := false }

/-- The backend collaborator as `synthesize` uses it.  `decode` is the
oracle for `JSON.parse` plus the current variant's field validation
applied to the extracted JSON text (`none` = `JSON.parse` threw); the
validation itself never fails (claims C3/C9 treat the in-repository
validation code directly). -/
structure SynthBackend where
  createThread : Except String String
  addMessage : String → String → Except String String
  deleteThread : String → Except String Unit
  decode : String → Option SynthesisResult

/-- Stands in for the `MEMORY_SYNTHESIS_PROMPT` template
(`prompts/journal-assistant.ts`); the template's wording only feeds the
LLM and is inert for every claim, so it is abbreviated here. -/
def MEMORY_SYNTHESIS_PROMPT : String := "## Memory Synthesis Task"

/-- `MemorySynthesisService.buildContextSummary` (both variants):
up to 5 memories, then the last 10 context messages. -/
def buildContextSummary (messages : List Message)
    (memories : Option (List RetrievedMemory)) : String :=
  let parts : List String :=
    (match memories with
     | some ms =>
       if ms.length > 0 then
         ("### Relevant Memories from Past Conversations" ::
           (ms.take 5).map (fun m => "- " ++ m.content)) ++ [""]
       else []
     | none => []) ++
    (if messages.length > 0 then
      "### Recent Conversation" ::
        ((messages.drop (messages.length - 10)).map
          (fun m => m.role.toUpper ++ ": " ++ m.content))
    else [])
  String.intercalate "\n" parts

/-- The synthesis prompt assembled by `synthesize`. -/
def synthesisPromptFor (userMessage : String)
    (conversationContext : List Message)
    (existingMemories : Option (List RetrievedMemory)) : String :=
  MEMORY_SYNTHESIS_PROMPT ++ "\n\n## Conversation Context\n" ++
    buildContextSummary conversationContext existingMemories ++
    "\n\n## User's Message\n" ++ userMessage ++
    "\n\nAnalyze the user's message and extract memories, follow-up questions, and elaboration topics."

/-- The string-level `parseResponse`: extract the first-to-last-brace
JSON candidate, then decode it (`none` on either failure). -/
def parseResponseText (decode : String → Option SynthesisResult)
    (content : String) : Option SynthesisResult :=
  match extractJson content with
  | none => none
  | some js => decode js

/-- `MemorySynthesisService.synthesize` (memory-synthesis.service.ts
lines 38–91): create a disposable thread, exchange the synthesis
prompt with `memoryMode = "off"`, parse, and return the canonical
empty result on any failure; the `finally` block always attempts to
delete the disposable thread, swallowing deletion errors
(`.catch(() => ...)`).  Returns the result together with the list of
thread ids on which deletion was attempted. -/
def synthesize (b : SynthBackend) (userMessage : String)
    (conversationContext : List Message)
    (existingMemories : Option (List RetrievedMemory)) :
    SynthesisResult × List String :=
  let prompt := synthesisPromptFor userMessage conversationContext existingMemories
  match b.createThread with
  | .error _ => (getEmptyResult, [])
  | .ok threadId =>
    let tryResult : SynthesisResult :=
      match b.addMessage threadId prompt with
      | .error _ => getEmptyResult
      | .ok content =>
        match parseResponseText b.decode content with
        | none => getEmptyResult
        | some parsed => parsed
    match b.deleteThread threadId with
    | .ok _ => (tryResult, [threadId])
    | .error _ => (tryResult, [threadId])

end MemorySynthesisService

/-! ## MemoryRetrievalService (`src/unnamed/part_004`) -/

namespace MemoryRetrievalService

/-- The words of `s`, lowercased and split on whitespace, that are
longer than 3 characters — the per-source keyword contribution. -/
def keywordWords (s : String) : List String :=
  (jsSplitWs s.toLower).filter (fun w => w.length > 3)

/-- The keyword set of `rankMemories` (part_004 lines 98–120):
extracted-memory content words, elaboration-topic words, and the words
of the last 5 context messages (all `> 3` characters).  The JS `Set`
is modelled by this list's membership. -/
def keywordsOf (synthesisResult : SynthesisResult)
    (conversationContext : List Message) : List String :=
  (synthesisResult.extractedMemories.flatMap (fun m => keywordWords m.content)) ++
  (synthesisResult.elaborationTopics.flatMap keywordWords) ++
  ((conversationContext.drop (conversationContext.length - 5)).flatMap
    (fun m => keywordWords m.content))

/-- A candidate memory with its computed relevance score, represented
exactly: the score's value is `matchCount / √words`.  (The source stores
the quotient as a float in `relevanceScore`; the pair keeps it exact.) -/
structure ScoredMemory where
  mem : RetrievedMemory
  matchCount : Nat
  wordCount : Nat
deriving DecidableEq

/-- The real value of the stored score: `matchCount / √words`. -/
noncomputable def ScoredMemory.score (s : ScoredMemory) : ℝ :=
  (s.matchCount : ℝ) / Real.sqrt (s.wordCount : ℝ)

/-- Scoring of one candidate (part_004 lines 123–142): count its words
present in the keyword set and normalize by the square root of its word
count; a candidate with no words scores 0 (represented `0/√1`). -/
def scoreMemory (keywords : List String) (m : RetrievedMemory) : ScoredMemory :=
  let contentWords := jsSplitWs m.content.toLower
  let score := (contentWords.filter (fun w => keywords.contains w)).length
  if contentWords.length > 0 then
    { mem := m, matchCount := score, wordCount := contentWords.length }
  else
    { mem := m, matchCount := 0, wordCount := 1 }

/-- The sort comparator `(a, b) => b.relevanceScore - a.relevanceScore`
of part_004 line 145, made exact: `a` may precede `b` iff
`score b ≤ score a`, i.e. `b.matchCount² · a.wordCount ≤ a.matchCount² · b.wordCount`.
(`max 1` only guards the vacuous `words = 0` case, which `scoreMemory`
never produces, to keep the comparator transitive on all of the type.) -/
def scoreGeB (a b : ScoredMemory) : Bool :=
  decide (b.matchCount * b.matchCount * max 1 a.wordCount ≤ a.matchCount * a.matchCount * max 1 b.wordCount)

/-- `MemoryRetrievalService.rankMemories` (part_004 lines 89–146):
score every candidate against the keyword set and sort descending by
score with a stable sort (JS `Array.prototype.sort` is stable). -/
def rankMemories (synthesisResult : SynthesisResult)
    (conversationContext : List Message)
    (memories : List RetrievedMemory) : List ScoredMemory :=
  let keywords := keywordsOf synthesisResult conversationContext
  (memories.map (scoreMemory keywords)).mergeSort scoreGeB

/-- `MemoryRetrievalService.retrieveContext` (part_004 lines 22–44):
rank what the backend returned and truncate to the limit (default 10);
on backend failure return the empty list. -/
def retrieveContext (backendMemories : Except String (List RetrievedMemory))
    (synthesisResult : SynthesisResult)
    (conversationContext : List Message)
    (limit : Option Nat) : List ScoredMemory :=
  let lim := limit.getD 10
  match backendMemories with
  | .error _ => []
  | .ok memories =>
    (rankMemories synthesisResult conversationContext memories).take lim

end MemoryRetrievalService

/-! ## MockBackboardService
(`src/src/server/services/mock-backboard.service.ts`: the current class
at lines 28–410, and the earlier variant at lines 427–650) -/

/-- The per-exchange memory mode (`types/index.ts`:
`"Auto" | "Readonly" | "off"`). -/
inductive MemoryMode where
  | auto
  | readonly
  | off
deriving DecidableEq

namespace MockBackboardService

/-- A durable memory of the double (shape of the `backboard-sdk`
`Memory`; the free-form `metadata` object is omitted — the double
stores it opaquely and no claim observes it). -/
structure Memory where
  id : String
  content : String
  score : ℚ
  createdAt : Nat
deriving DecidableEq

/-- The double's mutable state: its four `Map`s plus the current
assistant id. -/
structure MockState where
  assistants : List String
  threads : List (String × Nat)
  messages : List (String × List (String × String))
  memories : List (String × List Memory)
  currentAssistantId : Option String
deriving DecidableEq

/-- `MockBackboardService.getAssistantId`: throws when no assistant is
initialized. -/
def getAssistantId (st : MockState) : Except String String :=
  match st.currentAssistantId with
  | none => .error "BackboardService: Assistant not initialized"
  | some a => .ok a

/-- `MockBackboardService.createMockMemory` (lines 315–328): append
one memory to the current assistant's store. -/
def createMockMemory (st : MockState) (content : String)
    (freshId : String) (now : Nat) : Except String MockState :=
  match getAssistantId st with
  | .error e => .error e
  | .ok assistantId =>
    let currentMemories := (mapGet st.memories assistantId).getD []
    .ok { st with
      memories := mapSet st.memories assistantId
        (currentMemories ++ [{ id := freshId, content := content, score := 1, createdAt := now }]) }

/-- `MockBackboardService.addMessage` of the current class (lines
158–211): auto-create a missing thread, append the user and assistant
messages, and — only in `Auto` mode — create one memory from the
input content as a side effect.  `llmReply` is the optional
pass-through LLM's answer (`none` = no LLM configured, use the
templated mock reply); `freshMemId`/`now` stand for `randomUUID()` and
`new Date()`. -/
def addMessage (st : MockState) (threadId content : String)
    (memoryMode : MemoryMode) (llmReply : Option String)
    (freshMemId : String) (now : Nat) : Except String (MockState × String) :=
  let st1 :=
    if mapHas st.threads threadId then st
    else { st with
      threads := mapSet st.threads threadId now
      messages := mapSet st.messages threadId [] }
  let threadMessages := (mapGet st1.messages threadId).getD []
  let responseContent :=
    match llmReply with
    | some r => r
    | none => "Mock response to: \"" ++ content ++ "\""
  let st2 := { st1 with
    messages := mapSet st1.messages threadId
      (threadMessages ++ [("user", content), ("assistant", responseContent)]) }
  match memoryMode with
  | .auto => (createMockMemory st2 content freshMemId now).map (fun st3 => (st3, responseContent))
  | _ => .ok (st2, responseContent)

/-- `MockBackboardService.addMessage` of the earlier variant (lines
527–559): throws on an unknown thread; in `Auto` mode the memory
content is the templated derivation of the input. -/
def addMessageV2 (st : MockState) (threadId content : String)
    (memoryMode : MemoryMode) (freshMemId : String) (now : Nat) :
    Except String (MockState × String) :=
  if !(mapHas st.threads threadId) then
    .error ("Thread " ++ threadId ++ " not found")
  else
    let threadMessages := (mapGet st.messages threadId).getD []
    let responseContent := "Mock response to: \"" ++ content ++ "\""
    let st2 := { st with
      messages := mapSet st.messages threadId
        (threadMessages ++ [("user", content), ("assistant", responseContent)]) }
    match memoryMode with
    | .auto =>
      (createMockMemory st2 ("Memory derived from: \"" ++ content ++ "\"") freshMemId now).map
        (fun st3 => (st3, responseContent))
    | _ => .ok (st2, responseContent)

/-- `MockBackboardService.deleteThread` (lines 146–154, identical in
both variants): fails on an unknown thread id, else removes the thread
and its messages. -/
def deleteThread (st : MockState) (threadId : String) : Except String MockState :=
  if !(mapHas st.threads threadId) then
    .error ("Thread " ++ threadId ++ " not found")
  else
    .ok { st with
      threads := st.threads.filter (fun p => p.1 != threadId)
      messages := st.messages.filter (fun p => p.1 != threadId) }

/-- `MockBackboardService.deleteMemory` of the current class (lines
359–371): filter the current assistant's memories; if nothing was
removed, warn and leave the state untouched — no throw. -/
def deleteMemory (st : MockState) (memoryId : String) : Except String MockState :=
  match getAssistantId st with
  | .error e => .error e
  | .ok assistantId =>
    let currentMemories := (mapGet st.memories assistantId).getD []
    let filtered := currentMemories.filter (fun m => m.id != memoryId)
    if filtered.length < currentMemories.length then
      .ok { st with memories := mapSet st.memories assistantId filtered }
    else
      .ok st

/-- `MockBackboardService.deleteMemory` of the earlier variant (lines
634–640): store the filtered list unconditionally — also no throw. -/
def deleteMemoryV2 (st : MockState) (memoryId : String) : Except String MockState :=
  match getAssistantId st with
  | .error e => .error e
  | .ok assistantId =>
    let currentMemories := (mapGet st.memories assistantId).getD []
    let filtered := currentMemories.filter (fun m => m.id != memoryId)
    .ok { st with memories := mapSet st.memories assistantId filtered }

end MockBackboardService

/-! ## ConversationService (`src/src/server/services/conversation.service.ts`)

The relational store is modelled as lists of rows; the database's
query semantics (`WHERE`, `ORDER BY created_at DESC`, `LIMIT`) are
spelled out on those lists.  Row ids are strings ordered
lexicographically, standing for the uuid ordering the cursor
comparisons (`lt(id, cursor)`) rely on. -/

/-- A row of the `conversations` table. -/
structure ConvRow where
  id : String
  userId : String
  backboardThreadId : String
  title : Option String
  status : String
  createdAt : Nat
deriving DecidableEq

/-- A row of the `messages` table (the free-form `metadata` column is
omitted; no claim observes it). -/
structure MsgRow where
  id : String
  conversationId : String
  role : String
  content : String
  createdAt : Nat
deriving DecidableEq

/-- The pagination envelope (`types/index.ts` `PaginatedResult`). -/
structure PaginatedResult (α : Type) where
  items : List α
  nextCursor : Option String
  hasMore : Bool
deriving DecidableEq

/-- A conversation summary (`types/index.ts` `ConversationSummary`). -/
structure ConversationSummary where
  id : String
  title : Option String
  status : String
  messageCount : Nat
  lastMessageAt : Option Nat
  createdAt : Nat
deriving DecidableEq

namespace ConversationService

/-- The `Message` DTO built from a row (drops `conversationId`). -/
def toMessage (m : MsgRow) : Message :=
  { id := m.id, role := m.role, content := m.content, createdAt := m.createdAt }

/-- The database's `ORDER BY created_at DESC`.  Row order on equal
timestamps is the engine's choice; the embedding uses a stable sort,
and the claims that depend on output order carry distinct-timestamp
hypotheses. -/
def orderByDesc (key : α → Nat) (rows : List α) : List α :=
  rows.mergeSort (fun a b => decide (key b ≤ key a))

/-- The `WHERE` conditions of `getMessages`: the conversation's rows,
below the strictly-less-than cursor when one is given. -/
def msgPageCond (conversationId : String) (cursor : Option String)
    (m : MsgRow) : Bool :=
  m.conversationId == conversationId &&
    (match cursor with
     | some cur => decide (m.id < cur)
     | none => true)

/-- The `WHERE` conditions of `list`: the user's conversations,
optionally restricted by status, below the cursor when one is given. -/
def convPageCond (userId : String) (status : Option String)
    (cursor : Option String) (c : ConvRow) : Bool :=
  c.userId == userId &&
    (match status with
     | some s => c.status == s
     | none => true) &&
    (match cursor with
     | some cur => decide (c.id < cur)
     | none => true)

/-- `ConversationService.getMessages` (conversation.service.ts lines
259–304): verify ownership, fetch `limit + 1` rows matching the
conversation and the strictly-less-than cursor, newest first; the
extra row drives `hasMore`, and the cursor is the last kept row's id. -/
def getMessages (msgDb : List MsgRow) (convDb : List ConvRow)
    (conversationId userId : String) (limit : Nat) (cursor : Option String) :
    Except String (PaginatedResult Message) :=
  if !(convDb.any (fun c => c.id == conversationId && c.userId == userId)) then
    .error "Conversation not found"
  else
    let results := (orderByDesc MsgRow.createdAt
      (msgDb.filter (msgPageCond conversationId cursor))).take (limit + 1)
    let hasMore := decide (results.length > limit)
    let items := if hasMore then results.dropLast else results
    let nextCursor := if hasMore then (items.getLast?).map MsgRow.id else none
    .ok { items := items.map toMessage, nextCursor := nextCursor, hasMore := hasMore }

/-- The summary built by `list` for one conversation row: the derived
message count and last-message timestamp come from correlated
subqueries over the messages table. -/
def toSummary (msgDb : List MsgRow) (c : ConvRow) : ConversationSummary :=
  { id := c.id
    title := c.title
    status := c.status
    messageCount := (msgDb.filter (fun m => m.conversationId == c.id)).length
    lastMessageAt := ((msgDb.filter (fun m => m.conversationId == c.id)).map MsgRow.createdAt).max?
    createdAt := c.createdAt }

/-- `ConversationService.list` (conversation.service.ts lines 132–184):
the same `limit + 1` pagination over the user's conversations, newest
first, each summary carrying the derived message count and
last-message timestamp. -/
def list (convDb : List ConvRow) (msgDb : List MsgRow) (userId : String)
    (status : Option String) (limit : Nat) (cursor : Option String) :
    PaginatedResult ConversationSummary :=
  let results := (orderByDesc ConvRow.createdAt
    (convDb.filter (convPageCond userId status cursor))).take (limit + 1)
  let hasMore := decide (results.length > limit)
  let items := if hasMore then results.dropLast else results
  let nextCursor := if hasMore then (items.getLast?).map ConvRow.id else none
  { items := items.map (toSummary msgDb)
    nextCursor := nextCursor
    hasMore := hasMore }

/-- `ConversationService.addMessage` (conversation.service.ts lines
228–254): insert one row and return the `Message` DTO. -/
def addMessage (msgDb : List MsgRow) (row : MsgRow) : List MsgRow × Message :=
  (msgDb ++ [row], toMessage row)

/-- The database insert done by `addMessage` (the fold-friendly
state-only part). -/
def dbInsert (msgDb : List MsgRow) (row : MsgRow) : List MsgRow :=
  (addMessage msgDb row).1

/-- `ConversationService.getRecentContext` (conversation.service.ts
lines 309–328): the last `messageCount` messages fetched newest first,
then reversed into chronological order. -/
def getRecentContext (msgDb : List MsgRow) (conversationId : String)
    (messageCount : Nat) : List Message :=
  (((orderByDesc MsgRow.createdAt
      (msgDb.filter (fun m => m.conversationId == conversationId))).take
        messageCount).reverse).map toMessage

end ConversationService

/-! ## Sample inputs used by witnesses -/

/-- A minimal-response synthesis result: Scenario C's input. -/
def sampleMinimalSynthesis : SynthesisResult :=
  { extractedMemories := []
    followUpQuestions := []
    elaborationTopics := []
    previousTopicsToRevisit := []
    confidence := 1/2
    shouldTerminate := false
    terminationReason := none
    isMinimalResponse := true }

/-- Scenario A's synthesis result: one `event` memory, one follow-up. -/
def sampleEventSynthesis : SynthesisResult :=
  { extractedMemories := [{ content := "User went to gym", category := "event", confidence := 9/10 }]
    followUpQuestions := ["How did your workout go?"]
    elaborationTopics := []
    previousTopicsToRevisit := []
    confidence := 9/10
    shouldTerminate := false
    terminationReason := none
    isMinimalResponse := false }

/-- A fully successful single-turn environment around a given synthesis
result: thread found, no retrieval matches, all backend and database
calls succeed. -/
def sampleEnv (s : SynthesisResult) : AgentService.AgentEnv :=
  { backboardThreadId := some "thread_1"
    recentContext := []
    synthesisResult := s
    retrievedContext := []
    createMemoriesOutcome := .ok ()
    backendReply := fun _ _ => .ok "hi"
    persistUserOutcome := .ok ()
    persistAssistantOutcome := .ok () }

/-- A concrete over-confident synthesis response: both the per-memory
and the overall confidence are 2, outside `[0, 1]`. -/
def sampleOverConfidentResponse : SynthesisResponse :=
  { extractedMemories := some [{ content := "x", category := "goal", confidence := some 2 }]
    followUpQuestions := none
    elaborationTopics := none
    confidence := some 2 }

/-- A concrete synthesis backend: thread creation succeeds, the
exchange returns text with no JSON object, and thread deletion fails
(to exhibit the swallow). -/
def sampleSynthBackend : MemorySynthesisService.SynthBackend :=
  { createThread := .ok "thread_tmp"
    addMessage := fun _ _ => .ok "no json here"
    deleteThread := fun _ => .error "delete failed"
    decode := fun _ => none }

/-- A concrete double state: one assistant holding one memory, one
thread. -/
def sampleMockState : MockBackboardService.MockState :=
  { assistants := ["asst_1"]
    threads := [("thread_1", 0)]
    messages := [("thread_1", [])]
    memories := [("asst_1", [{ id := "mem_0", content := "old fact", score := 1, createdAt := 0 }])]
    currentAssistantId := some "asst_1" }

/-- The state after an `Auto`-mode exchange on `sampleMockState`. -/
def sampleAutoState : MockBackboardService.MockState :=
  match MockBackboardService.addMessage sampleMockState "thread_1" "I ran" .auto none "mem_1" 5 with
  | .ok (st, _) => st
  | .error _ => sampleMockState

/-- The state after a `Readonly`-mode exchange on `sampleMockState`. -/
def sampleReadonlyState : MockBackboardService.MockState :=
  match MockBackboardService.addMessage sampleMockState "thread_1" "I ran" .readonly none "mem_1" 5 with
  | .ok (st, _) => st
  | .error _ => sampleMockState

/-- A concrete conversations table: one conversation owned by `u1`. -/
def sampleConvDb : List ConvRow :=
  [{ id := "c1", userId := "u1", backboardThreadId := "t1", title := none,
     status := "active", createdAt := 0 }]

/-- A concrete messages table: three messages of conversation `c1`
with strictly increasing creation times. -/
def sampleMsgDb : List MsgRow :=
  [{ id := "m1", conversationId := "c1", role := "user", content := "first", createdAt := 1 },
   { id := "m2", conversationId := "c1", role := "assistant", content := "second", createdAt := 2 },
   { id := "m3", conversationId := "c1", role := "user", content := "third", createdAt := 3 }]

/-- The page of `getMessages` over the concrete tables, with limit 2. -/
def sampleMsgPage : PaginatedResult Message :=
  match ConversationService.getMessages sampleMsgDb sampleConvDb "c1" "u1" 2 none with
  | .ok r => r
  | .error _ => { items := [], nextCursor := none, hasMore := false }

/-! ## Helper lemmas -/

/-- Eliminates a successful `processMessage` run: the returned strategy,
termination flag and termination reason are the ones computed from the
turn's synthesis result and retrieved context. -/
theorem AgentService.processMessage_ok (env : AgentService.AgentEnv)
    (userMessage : String) (resp : AgentResponse)
    (h : AgentService.processMessage env userMessage = .ok resp) :
    resp.planningState.responseStrategy =
      AgentService.inferResponseStrategy env.synthesisResult env.retrievedContext ∧
    resp.shouldTerminate =
      (env.synthesisResult.shouldTerminate ||
        (env.synthesisResult.isMinimalResponse &&
          env.synthesisResult.followUpQuestions.length == 0 &&
          env.synthesisResult.previousTopicsToRevisit.length == 0)) ∧
    resp.terminationReason =
      (if env.synthesisResult.shouldTerminate then
        env.synthesisResult.terminationReason
      else if (env.synthesisResult.shouldTerminate ||
          (env.synthesisResult.isMinimalResponse &&
            env.synthesisResult.followUpQuestions.length == 0 &&
            env.synthesisResult.previousTopicsToRevisit.length == 0)) then
        some "no_new_info"
      else none) := by
  simp only [AgentService.processMessage] at h
  split at h
  · exact Except.noConfusion h
  · split at h
    · exact Except.noConfusion h
    · split at h
      · exact Except.noConfusion h
      · split at h
        · exact Except.noConfusion h
        · split at h
          · exact Except.noConfusion h
          · injection h with h
            subst h
            exact ⟨rfl, rfl, rfl⟩

/-- `inferResponseStrategy` meets its first-match-priority specification,
phrased propositionally. -/
theorem AgentService.inferResponseStrategy_spec (s : SynthesisResult)
    (retrievedContext : List RetrievedMemory) :
    AgentService.inferResponseStrategy s retrievedContext =
      (if s.shouldTerminate = true then "conversation_closing"
       else if s.isMinimalResponse = true then
         (if s.previousTopicsToRevisit ≠ [] then "topic_transition"
          else "minimal_response_handling")
       else if retrievedContext ≠ [] then "contextual_follow_up"
       else if s.followUpQuestions ≠ [] then "elaboration_prompt"
       else if ∃ m ∈ s.extractedMemories, m.category = "feeling" then "emotional_support"
       else if ∃ m ∈ s.extractedMemories, m.category = "goal" then "goal_tracking"
       else "general_journaling") := by
  simp only [AgentService.inferResponseStrategy, List.length_pos, List.any_eq_true,
    beq_iff_eq, Bool.if_true_left]

/-! ## Claim theorems -/

/-- C1: for every turn `processMessage` completes, the returned
`shouldTerminate` is `synthesis.shouldTerminate OR (isMinimalResponse
AND no follow-ups AND no previous topics to revisit)`, and the returned
`terminationReason` is the synthesis reason when the synthesis signalled
termination, `"no_new_info"` when only the OR-derived condition fired,
and `null` otherwise; in particular a minimal response with empty
follow-ups and previous topics and no termination signal terminates
with reason `"no_new_info"`. -/
theorem C1_processMessage_termination (env : AgentService.AgentEnv)
    (userMessage : String) (resp : AgentResponse)
    (h : AgentService.processMessage env userMessage = .ok resp) :
    resp.shouldTerminate =
      (env.synthesisResult.shouldTerminate ||
        (env.synthesisResult.isMinimalResponse &&
          env.synthesisResult.followUpQuestions.length == 0 &&
          env.synthesisResult.previousTopicsToRevisit.length == 0)) ∧
    (env.synthesisResult.shouldTerminate = true →
      resp.terminationReason = env.synthesisResult.terminationReason) ∧
    (env.synthesisResult.shouldTerminate = false → resp.shouldTerminate = true →
      resp.terminationReason = some "no_new_info") ∧
    (resp.shouldTerminate = false → resp.terminationReason = none) ∧
    (env.synthesisResult.isMinimalResponse = true →
      env.synthesisResult.followUpQuestions = [] →
      env.synthesisResult.previousTopicsToRevisit = [] →
      env.synthesisResult.shouldTerminate = false →
      resp.shouldTerminate = true ∧ resp.terminationReason = some "no_new_info") := by
  obtain ⟨-, hterm, hreason⟩ := AgentService.processMessage_ok env userMessage resp h
  refine ⟨hterm, ?_, ?_, ?_, ?_⟩
  · intro hst
    rw [hreason, if_pos hst]
  · intro hst hflag
    rw [hterm, hst] at hflag
    rw [hreason, if_neg (by simp [hst]), if_pos (by simp [hst, ← hflag])]
  · intro hflag
    rw [hterm] at hflag
    have hst : env.synthesisResult.shouldTerminate = false := by
      cases hb : env.synthesisResult.shouldTerminate
      · rfl
      · rw [hb] at hflag; simp at hflag
    rw [hreason, if_neg (by simp [hst]), if_neg (by rw [hflag]; simp)]
  · intro hmin hfu hprev hst
    have hflag : resp.shouldTerminate = true := by
      rw [hterm, hst, hmin, hfu, hprev]
      rfl
    refine ⟨hflag, ?_⟩
    rw [hreason, if_neg (by simp [hst]), if_pos (by rw [hst, hmin, hfu, hprev]; rfl)]

/-- Witness for C1: Scenario C run concretely — a minimal response with
no follow-ups and no previous topics, no synthesis termination signal,
yields `shouldTerminate = true` with reason `"no_new_info"`. -/
theorem C1_processMessage_termination_witness :
    ({ content := "hi"
       planningState :=
         { extractedMemories := []
           followUpQuestions := []
           retrievedContext := []
           responseStrategy := "minimal_response_handling" }
       shouldTerminate := true
       terminationReason := some "no_new_info" } : AgentResponse).shouldTerminate = true ∧
    ({ content := "hi"
       planningState :=
         { extractedMemories := []
           followUpQuestions := []
           retrievedContext := []
           responseStrategy := "minimal_response_handling" }
       shouldTerminate := true
       terminationReason := some "no_new_info" } : AgentResponse).terminationReason =
      some "no_new_info" :=
  (C1_processMessage_termination (sampleEnv sampleMinimalSynthesis) "just ok" _
    rfl).2.2.2.2 rfl rfl rfl rfl

/-- C2: the response-strategy tag `processMessage` returns is decided by
first-match priority — termination, then minimal response (with or
without previous topics to revisit), then non-empty retrieved context,
then follow-up questions, then a `feeling` memory, then a `goal`
memory, else general journaling; Scenario A (one `event` memory, one
follow-up, no retrieval matches, no signals) yields
`"elaboration_prompt"` with `shouldTerminate = false`. -/
theorem C2_inferResponseStrategy_priority (env : AgentService.AgentEnv)
    (userMessage : String) (resp : AgentResponse)
    (h : AgentService.processMessage env userMessage = .ok resp) :
    resp.planningState.responseStrategy =
      (if env.synthesisResult.shouldTerminate = true then "conversation_closing"
       else if env.synthesisResult.isMinimalResponse = true then
         (if env.synthesisResult.previousTopicsToRevisit ≠ [] then "topic_transition"
          else "minimal_response_handling")
       else if env.retrievedContext ≠ [] then "contextual_follow_up"
       else if env.synthesisResult.followUpQuestions ≠ [] then "elaboration_prompt"
       else if ∃ m ∈ env.synthesisResult.extractedMemories, m.category = "feeling" then
         "emotional_support"
       else if ∃ m ∈ env.synthesisResult.extractedMemories, m.category = "goal" then
         "goal_tracking"
       else "general_journaling") ∧
    (env.synthesisResult.shouldTerminate = false →
      env.synthesisResult.isMinimalResponse = false →
      env.retrievedContext = [] →
      env.synthesisResult.followUpQuestions ≠ [] →
      resp.planningState.responseStrategy = "elaboration_prompt" ∧
        resp.shouldTerminate = false) := by
  obtain ⟨hstrat, hterm, -⟩ := AgentService.processMessage_ok env userMessage resp h
  rw [hstrat, AgentService.inferResponseStrategy_spec]
  refine ⟨rfl, ?_⟩
  intro hst hmin hctx hfu
  constructor
  · rw [if_neg (by simp [hst]), if_neg (by simp [hmin]), if_neg (by simp [hctx]),
      if_pos hfu]
  · rw [hterm, hst, hmin]
    rfl

/-- Witness for C2: Scenario A run concretely — synthesis extracted one
`event` memory and one follow-up question and retrieval matched
nothing, so the strategy is `"elaboration_prompt"` and the turn does
not terminate. -/
theorem C2_inferResponseStrategy_priority_witness :
    ({ content := "hi"
       planningState :=
         { extractedMemories :=
             [{ content := "User went to gym", category := "event", confidence := 9/10 }]
           followUpQuestions := ["How did your workout go?"]
           retrievedContext := []
           responseStrategy := "elaboration_prompt" }
       shouldTerminate := false
       terminationReason := none } : AgentResponse).planningState.responseStrategy =
        "elaboration_prompt" ∧
    ({ content := "hi"
       planningState :=
         { extractedMemories :=
             [{ content := "User went to gym", category := "event", confidence := 9/10 }]
           followUpQuestions := ["How did your workout go?"]
           retrievedContext := []
           responseStrategy := "elaboration_prompt" }
       shouldTerminate := false
       terminationReason := none } : AgentResponse).shouldTerminate = false :=
  (C2_inferResponseStrategy_priority (sampleEnv sampleEventSynthesis)
      "I went to the gym today" _ rfl).2 rfl rfl rfl (by simp [sampleEnv, sampleEventSynthesis])

/-- Bounds of the clamp: `clamp01 q ∈ [0, 1]`. -/
theorem clamp01_nonneg (q : ℚ) : 0 ≤ clamp01 q := le_max_left 0 (min 1 q)

/-- Upper bound of the clamp. -/
theorem clamp01_le_one (q : ℚ) : clamp01 q ≤ 1 :=
  max_le (by norm_num) (min_le_left 1 q)

/-- `jsRound` keeps `[0, 100]`. -/
theorem jsRound_mem_of_bounds {q : ℚ} (h0 : 0 ≤ q) (h1 : q ≤ 100) :
    0 ≤ jsRound q ∧ jsRound q ≤ 100 := by
  unfold jsRound
  constructor
  · rw [Int.le_floor]
    push_cast
    linarith
  · have : (⌊q + 1/2⌋ : ℤ) < 101 := by
      rw [Int.floor_lt]
      push_cast
      linarith
    omega

/-- The scaled-and-rounded confidence of the named service file lies in
`[0, 100]`. -/
theorem scaledConfidence_bounds (c : Option ℚ) :
    (0 : ℚ) ≤ (jsRound (clamp01 (jsOrHalf c) * 100) : ℚ) ∧
      ((jsRound (clamp01 (jsOrHalf c) * 100) : ℚ)) ≤ 100 := by
  have h0 : 0 ≤ clamp01 (jsOrHalf c) * 100 := by
    have := clamp01_nonneg (jsOrHalf c)
    linarith
  have h1 : clamp01 (jsOrHalf c) * 100 ≤ 100 := by
    have := clamp01_le_one (jsOrHalf c)
    linarith
  obtain ⟨hl, hr⟩ := jsRound_mem_of_bounds h0 h1
  exact ⟨by exact_mod_cast hl, by exact_mod_cast hr⟩

/-- `clamp01` at the concrete input 2. -/
theorem clamp01_two : clamp01 2 = 1 := by
  unfold clamp01
  norm_num

/-- `jsRound` at the concrete input 100. -/
theorem jsRound_hundred : jsRound 100 = 100 := by
  unfold jsRound
  norm_num

/-- The named service file's `parseResponse`, evaluated on the
over-confident response. -/
theorem parseResponse_sampleOverConfident :
    MemorySynthesisService.parseResponse sampleOverConfidentResponse =
      { extractedMemories := [{ content := "x", category := "goal", confidence := 100 }]
        followUpQuestions := []
        elaborationTopics := []
        confidence := 100 } := by
  simp [MemorySynthesisService.parseResponse, sampleOverConfidentResponse, jsOrNil, jsOrHalf,
    MemorySynthesisService.validCategories, clamp01_two]
  norm_num [clamp01_two, jsRound_hundred]

/-- C3 counterexample: on a response carrying confidence 2, the
`parseResponse` of `memory-synthesis.service.ts` stores 100 — not a
value in `[0, 1]` — both per-memory and overall. -/
theorem C3_confidence_counterexample :
    (MemorySynthesisService.parseResponse
        sampleOverConfidentResponse).extractedMemories.map ExtractedMemory.confidence =
      [100] ∧
    (MemorySynthesisService.parseResponse sampleOverConfidentResponse).confidence = 100 ∧
    ¬ ((100 : ℚ) ≤ 1) := by
  rw [parseResponse_sampleOverConfident]
  refine ⟨rfl, rfl, by norm_num⟩

/-- C3 (amended): every stored confidence is first clamped into
`[0, 1]`; the `part_009` variant stores that clamped value, so its
stored confidences lie in `[0, 1]`, while the
`memory-synthesis.service.ts` variant stores `Math.round(clamped · 100)`,
an integer in `[0, 100]`. -/
theorem C3_confidence_clamped_amended (parsed : SynthesisResponse) :
    (∀ m ∈ (MemorySynthesisService.parseResponseAlt parsed).extractedMemories,
      0 ≤ m.confidence ∧ m.confidence ≤ 1) ∧
    (0 ≤ (MemorySynthesisService.parseResponseAlt parsed).confidence ∧
      (MemorySynthesisService.parseResponseAlt parsed).confidence ≤ 1) ∧
    (∀ m ∈ (MemorySynthesisService.parseResponse parsed).extractedMemories,
      0 ≤ m.confidence ∧ m.confidence ≤ 100) ∧
    (0 ≤ (MemorySynthesisService.parseResponse parsed).confidence ∧
      (MemorySynthesisService.parseResponse parsed).confidence ≤ 100) := by
  refine ⟨?_, ⟨clamp01_nonneg _, clamp01_le_one _⟩, ?_, scaledConfidence_bounds _⟩
  · intro m hm
    simp only [MemorySynthesisService.parseResponseAlt, List.mem_map] at hm
    obtain ⟨raw, -, rfl⟩ := hm
    exact ⟨clamp01_nonneg _, clamp01_le_one _⟩
  · intro m hm
    simp only [MemorySynthesisService.parseResponse, List.mem_map] at hm
    obtain ⟨raw, -, rfl⟩ := hm
    exact scaledConfidence_bounds _

/-- Witness for the amended C3: on the concrete over-confident
response, the `part_009` variant stores a value in `[0, 1]` and the
named service file stores the parsed memory with confidence 100,
within `[0, 100]`. -/
theorem C3_confidence_clamped_amended_witness :
    (0 ≤ (MemorySynthesisService.parseResponseAlt sampleOverConfidentResponse).confidence ∧
      (MemorySynthesisService.parseResponseAlt sampleOverConfidentResponse).confidence ≤ 1) ∧
    (0 ≤ ({ content := "x", category := "goal", confidence := 100 } : ExtractedMemory).confidence ∧
      ({ content := "x", category := "goal", confidence := 100 } : ExtractedMemory).confidence ≤ 100) :=
  ⟨(C3_confidence_clamped_amended sampleOverConfidentResponse).2.1,
    (C3_confidence_clamped_amended sampleOverConfidentResponse).2.2.1
      { content := "x", category := "goal", confidence := 100 }
      (by rw [parseResponse_sampleOverConfident]; exact List.mem_singleton.mpr rfl)⟩

/-- C9: an extracted-memory entry whose category is outside the fixed
six-element enum (or whose content is empty) is dropped by
`parseResponse` — every kept memory has a valid category and non-empty
content, removing an invalid-category entry from the raw list does not
change the parsed result at all (it is dropped, never defaulted), and
parsing stays total. -/
theorem C9_invalid_category_dropped (parsed : SynthesisResponse) :
    (∀ m ∈ (MemorySynthesisService.parseResponse parsed).extractedMemories,
      m.category ∈ MemorySynthesisService.validCategories ∧ m.content ≠ "") ∧
    (∀ (raw : RawExtractedMemory) (l₁ l₂ : List RawExtractedMemory),
      raw.category ∉ MemorySynthesisService.validCategories →
      MemorySynthesisService.parseResponse
          { parsed with extractedMemories := some (l₁ ++ raw :: l₂) } =
        MemorySynthesisService.parseResponse
          { parsed with extractedMemories := some (l₁ ++ l₂) }) := by
  constructor
  · intro m hm
    simp only [MemorySynthesisService.parseResponse, List.mem_map, List.mem_filter,
      Bool.and_eq_true, bne_iff_ne, ne_eq, List.contains_iff_exists_mem_beq,
      beq_iff_eq] at hm
    obtain ⟨raw, ⟨-, hcontent, cat, hcat, rfl⟩, rfl⟩ := hm
    exact ⟨hcat, hcontent⟩
  · intro raw l₁ l₂ hraw
    simp [MemorySynthesisService.parseResponse, jsOrNil, List.filter_append,
      List.filter_cons, hraw]

/-- Witness for C9: a response holding one invalid-category entry and
one valid one parses identically with and without the invalid entry,
and its single kept memory has a valid category and non-empty content. -/
theorem C9_invalid_category_dropped_witness :
    (MemorySynthesisService.parseResponse
        { extractedMemories := some
            [{ content := "y", category := "junk", confidence := some (1/2) },
             { content := "x", category := "goal", confidence := some (1/2) }]
          followUpQuestions := none
          elaborationTopics := none
          confidence := none } =
      MemorySynthesisService.parseResponse
        { extractedMemories := some
            [{ content := "x", category := "goal", confidence := some (1/2) }]
          followUpQuestions := none
          elaborationTopics := none
          confidence := none }) ∧
    ("goal" ∈ MemorySynthesisService.validCategories ∧ "x" ≠ "") :=
  ⟨(C9_invalid_category_dropped
      { extractedMemories := some
          [{ content := "x", category := "goal", confidence := some (1/2) }]
        followUpQuestions := none
        elaborationTopics := none
        confidence := none }).2
      { content := "y", category := "junk", confidence := some (1/2) } []
      [{ content := "x", category := "goal", confidence := some (1/2) }] (by decide),
    (C9_invalid_category_dropped
      { extractedMemories := some
          [{ content := "x", category := "goal", confidence := some (1/2) }]
        followUpQuestions := none
        elaborationTopics := none
        confidence := none }).1
      { content := "x", category := "goal",
        confidence := (jsRound (clamp01 (jsOrHalf (some (1/2))) * 100) : ℚ) }
      (by simp [MemorySynthesisService.parseResponse, jsOrNil,
        MemorySynthesisService.validCategories])⟩

/-- C4: `synthesize` never propagates a failure — if thread creation
fails, if the exchange fails, if the response holds no brace-delimited
JSON candidate, or if decoding fails, it returns the canonical empty
result; whenever the disposable thread was created, its deletion is
attempted on every exit path, and the outcome of the deletion (the
swallowed `.catch`) never affects the returned value. -/
theorem C4_synthesize_empty_on_failure (b : MemorySynthesisService.SynthBackend)
    (userMessage : String) (conversationContext : List Message)
    (existingMemories : Option (List RetrievedMemory)) :
    (∀ e, b.createThread = .error e →
      MemorySynthesisService.synthesize b userMessage conversationContext existingMemories =
        (MemorySynthesisService.getEmptyResult, [])) ∧
    (∀ threadId, b.createThread = .ok threadId →
      (MemorySynthesisService.synthesize b userMessage conversationContext
          existingMemories).2 = [threadId] ∧
      (∀ e, b.addMessage threadId
          (MemorySynthesisService.synthesisPromptFor userMessage conversationContext
            existingMemories) = .error e →
        (MemorySynthesisService.synthesize b userMessage conversationContext
            existingMemories).1 = MemorySynthesisService.getEmptyResult) ∧
      (∀ content, b.addMessage threadId
          (MemorySynthesisService.synthesisPromptFor userMessage conversationContext
            existingMemories) = .ok content →
        MemorySynthesisService.parseResponseText b.decode content = none →
        (MemorySynthesisService.synthesize b userMessage conversationContext
            existingMemories).1 = MemorySynthesisService.getEmptyResult)) ∧
    (∀ content, MemorySynthesisService.extractJson content = none →
      MemorySynthesisService.parseResponseText b.decode content = none) ∧
    (∀ d, MemorySynthesisService.synthesize { b with deleteThread := d } userMessage
        conversationContext existingMemories =
      MemorySynthesisService.synthesize b userMessage conversationContext
        existingMemories) := by
  refine ⟨?_, ?_, ?_, ?_⟩
  · intro e he
    simp [MemorySynthesisService.synthesize, he]
  · intro threadId htid
    refine ⟨?_, ?_, ?_⟩
    · cases hd : b.deleteThread threadId <;>
        simp [MemorySynthesisService.synthesize, htid, hd]
    · intro e he
      cases hd : b.deleteThread threadId <;>
        simp [MemorySynthesisService.synthesize, htid, he, hd]
    · intro content hc hp
      cases hd : b.deleteThread threadId <;>
        simp [MemorySynthesisService.synthesize, htid, hc, hp, hd]
  · intro content hc
    simp [MemorySynthesisService.parseResponseText, hc]
  · intro d
    unfold MemorySynthesisService.synthesize
    cases hct : b.createThread with
    | error e => simp [hct]
    | ok threadId =>
      cases hd1 : b.deleteThread threadId <;> cases hd2 : d threadId <;>
        simp [hct, hd1, hd2]

/-- Witness for C4: on the concrete backend, the run attempts to delete
the disposable thread `thread_tmp` (even though deletion fails) and
returns the canonical empty result, since the reply held no JSON. -/
theorem C4_synthesize_empty_on_failure_witness :
    (MemorySynthesisService.synthesize sampleSynthBackend "I went hiking" [] none).2 =
      ["thread_tmp"] ∧
    (MemorySynthesisService.synthesize sampleSynthBackend "I went hiking" [] none).1 =
      MemorySynthesisService.getEmptyResult :=
  ⟨((C4_synthesize_empty_on_failure sampleSynthBackend "I went hiking" [] none).2.1
      "thread_tmp" rfl).1,
   ((C4_synthesize_empty_on_failure sampleSynthBackend "I went hiking" [] none).2.1
      "thread_tmp" rfl).2.2 "no json here" rfl rfl⟩

/-- Looking up the key just set returns the new value (JS
`m.set(k, v).get(k) === v`). -/
theorem mapGet_mapSet_self (l : List (String × β)) (k : String) (v : β) :
    mapGet (mapSet l k v) k = some v := by
  induction l with
  | nil => simp [mapSet, mapGet]
  | cons p t ih =>
    by_cases h : p.1 == k
    · simp [mapSet, mapGet, h]
    · simp [mapSet, mapGet, h] at ih ⊢
      exact ih

/-- `createMockMemory` with an initialized assistant: appends exactly
one memory to that assistant's store. -/
theorem createMockMemory_ok (st : MockBackboardService.MockState)
    (content freshId : String) (now : Nat) (assistantId : String)
    (hasst : st.currentAssistantId = some assistantId) :
    MockBackboardService.createMockMemory st content freshId now =
      .ok { st with
        memories := mapSet st.memories assistantId
          ((mapGet st.memories assistantId).getD [] ++
            [{ id := freshId, content := content, score := 1, createdAt := now }]) } := by
  simp [MockBackboardService.createMockMemory, MockBackboardService.getAssistantId, hasst]

/-- C5: an `addMessage` exchange on the in-memory double creates
exactly one durable memory in the current assistant's store when
`memoryMode` is `Auto` (appended at the end, derived from the input
content), and leaves the memory maps entirely unchanged when the mode
is `Readonly` or `off` — in the current class and in the earlier
variant alike. -/
theorem C5_addMessage_memory_side_effect (st : MockBackboardService.MockState)
    (threadId content : String) (llmReply : Option String)
    (freshMemId : String) (now : Nat) (assistantId : String)
    (hasst : st.currentAssistantId = some assistantId) :
    (∀ st' r, MockBackboardService.addMessage st threadId content .auto llmReply freshMemId now
        = .ok (st', r) →
      mapGet st'.memories assistantId =
        some ((mapGet st.memories assistantId).getD [] ++
          [{ id := freshMemId, content := content, score := 1, createdAt := now }])) ∧
    (∀ mode, (mode = MemoryMode.readonly ∨ mode = MemoryMode.off) →
      ∀ st' r, MockBackboardService.addMessage st threadId content mode llmReply freshMemId now
          = .ok (st', r) →
        st'.memories = st.memories) ∧
    (∀ st' r, MockBackboardService.addMessageV2 st threadId content .auto freshMemId now
        = .ok (st', r) →
      mapGet st'.memories assistantId =
        some ((mapGet st.memories assistantId).getD [] ++
          [{ id := freshMemId, content := "Memory derived from: \"" ++ content ++ "\"",
             score := 1, createdAt := now }])) ∧
    (∀ mode, (mode = MemoryMode.readonly ∨ mode = MemoryMode.off) →
      ∀ st' r, MockBackboardService.addMessageV2 st threadId content mode freshMemId now
          = .ok (st', r) →
        st'.memories = st.memories) := by
  refine ⟨?_, ?_, ?_, ?_⟩
  · intro st' r h
    simp only [MockBackboardService.addMessage] at h
    rw [createMockMemory_ok _ _ _ _ assistantId (by split <;> simp [hasst])] at h
    simp only [Except.map_ok] at h
    injection h with h
    injection h with h1 h2
    subst h1
    simp [mapGet_mapSet_self, apply_ite MockBackboardService.MockState.memories]
  · intro mode hmode st' r h
    rcases hmode with rfl | rfl <;>
    · simp only [MockBackboardService.addMessage] at h
      injection h with h
      injection h with h1 h2
      subst h1
      simp [apply_ite MockBackboardService.MockState.memories]
  · intro st' r h
    simp only [MockBackboardService.addMessageV2] at h
    split at h
    · exact Except.noConfusion h
    · rw [createMockMemory_ok _ _ _ _ assistantId (by simp [hasst])] at h
      simp only [Except.map_ok] at h
      injection h with h
      injection h with h1 h2
      subst h1
      simp [mapGet_mapSet_self]
  · intro mode hmode st' r h
    rcases hmode with rfl | rfl <;>
    · simp only [MockBackboardService.addMessageV2] at h
      split at h
      · exact Except.noConfusion h
      · injection h with h
        injection h with h1 h2
        subst h1
        simp

/-- Witness for C5: on the concrete state, the `Auto` exchange appends
exactly the one derived memory, and the `Readonly` exchange leaves the
memory map unchanged. -/
theorem C5_addMessage_memory_side_effect_witness :
    mapGet sampleAutoState.memories "asst_1" =
      some ((mapGet sampleMockState.memories "asst_1").getD [] ++
        [{ id := "mem_1", content := "I ran", score := 1, createdAt := 5 }]) ∧
    sampleReadonlyState.memories = sampleMockState.memories :=
  ⟨(C5_addMessage_memory_side_effect sampleMockState "thread_1" "I ran" none "mem_1" 5
      "asst_1" rfl).1 sampleAutoState "Mock response to: \"I ran\"" rfl,
   (C5_addMessage_memory_side_effect sampleMockState "thread_1" "I ran" none "mem_1" 5
      "asst_1" rfl).2.1 .readonly (Or.inl rfl) sampleReadonlyState
      "Mock response to: \"I ran\"" rfl⟩

/-- C10: `deleteMemory` on an id absent from the current assistant's
store completes without throwing and leaves the state unchanged (the
current class returns the state as is, the earlier variant rewrites
the same list), while `deleteThread` on an unknown thread id throws. -/
theorem C10_deleteMemory_unknown_id_noop (st : MockBackboardService.MockState)
    (assistantId memoryId : String)
    (hasst : st.currentAssistantId = some assistantId)
    (hmem : memoryId ∉ ((mapGet st.memories assistantId).getD []).map
      MockBackboardService.Memory.id) :
    MockBackboardService.deleteMemory st memoryId = .ok st ∧
    MockBackboardService.deleteMemoryV2 st memoryId =
      .ok { st with
        memories := mapSet st.memories assistantId
          ((mapGet st.memories assistantId).getD []) } ∧
    (∀ threadId, mapHas st.threads threadId = false →
      MockBackboardService.deleteThread st threadId =
        .error ("Thread " ++ threadId ++ " not found")) := by
  have hfilter : ((mapGet st.memories assistantId).getD []).filter
      (fun m => m.id != memoryId) = (mapGet st.memories assistantId).getD [] := by
    apply List.filter_eq_self.mpr
    intro m hm
    simp only [bne_iff_ne, ne_eq]
    intro hid
    exact hmem (hid ▸ List.mem_map_of_mem MockBackboardService.Memory.id hm)
  refine ⟨?_, ?_, ?_⟩
  · simp [MockBackboardService.deleteMemory, MockBackboardService.getAssistantId, hasst,
      hfilter]
  · simp [MockBackboardService.deleteMemoryV2, MockBackboardService.getAssistantId, hasst,
      hfilter]
  · intro threadId hthread
    simp [MockBackboardService.deleteThread, hthread]

/-- Witness for C10: on the concrete state, deleting the unknown memory
id `mem_x` is a no-op `ok`, and deleting the unknown thread id
`thread_x` throws. -/
theorem C10_deleteMemory_unknown_id_noop_witness :
    MockBackboardService.deleteMemory sampleMockState "mem_x" = .ok sampleMockState ∧
    MockBackboardService.deleteThread sampleMockState "thread_x" =
      .error ("Thread " ++ "thread_x" ++ " not found") :=
  ⟨(C10_deleteMemory_unknown_id_noop sampleMockState "asst_1" "mem_x" rfl
      (by decide)).1,
   (C10_deleteMemory_unknown_id_noop sampleMockState "asst_1" "mem_x" rfl
      (by decide)).2.2 "thread_x" rfl⟩

/-- The shared `limit + 1` page arithmetic, over any row type. -/
theorem paginate_spec (key : α → Nat) (rows : List α) (k : Nat) (hk : 1 ≤ k) :
    (decide ((((ConversationService.orderByDesc key rows).take (k + 1)).length > k)) = true ↔
      rows.length > k) ∧
    (rows.length > k →
      (((ConversationService.orderByDesc key rows).take (k + 1)).dropLast =
        (ConversationService.orderByDesc key rows).take k ∧
       ((ConversationService.orderByDesc key rows).take k).length = k ∧
       (ConversationService.orderByDesc key rows).take k ≠ [])) ∧
    (rows.length ≤ k →
      ((ConversationService.orderByDesc key rows).take (k + 1) =
        ConversationService.orderByDesc key rows)) := by
  have hlen : (ConversationService.orderByDesc key rows).length = rows.length := by
    simp [ConversationService.orderByDesc]
  refine ⟨?_, ?_, ?_⟩
  · simp only [decide_eq_true_eq, List.length_take, hlen]
    omega
  · intro hgt
    refine ⟨?_, ?_, ?_⟩
    · rw [List.dropLast_eq_take, List.take_take, List.length_take, hlen]
      congr 1
      omega
    · rw [List.length_take, hlen]
      omega
    · intro hnil
      have hlen2 := congrArg List.length hnil
      rw [List.length_take, hlen] at hlen2
      simp only [List.length_nil] at hlen2
      omega
  · intro hle
    exact List.take_of_length_le (by rw [hlen]; omega)

/-- C7: the `limit + 1` pagination contract of `getMessages` and
`list` — with requested limit `k ≥ 1` (the zod schemas enforce
`limit ≥ 1`), when more than `k` rows match the conversation/user and
cursor conditions the page has `hasMore = true`, exactly `k` items
(the newest-first prefix), and a cursor equal to the last returned
row's id; when at most `k` rows match, `hasMore = false` and the
cursor is null. -/
theorem C7_pagination_contract (msgDb : List MsgRow) (convDb : List ConvRow)
    (conversationId userId : String) (status : Option String) (k : Nat)
    (cursor : Option String) (hk : 1 ≤ k) :
    (∀ res, ConversationService.getMessages msgDb convDb conversationId userId k cursor
        = .ok res →
      ((msgDb.filter (ConversationService.msgPageCond conversationId cursor)).length > k →
        res.hasMore = true ∧
        res.items = ((ConversationService.orderByDesc MsgRow.createdAt
          (msgDb.filter (ConversationService.msgPageCond conversationId cursor))).take k).map
            ConversationService.toMessage ∧
        res.items.length = k ∧
        ∃ last, res.items.getLast? = some last ∧ res.nextCursor = some last.id) ∧
      ((msgDb.filter (ConversationService.msgPageCond conversationId cursor)).length ≤ k →
        res.hasMore = false ∧ res.nextCursor = none ∧
        res.items = (ConversationService.orderByDesc MsgRow.createdAt
          (msgDb.filter (ConversationService.msgPageCond conversationId cursor))).map
            ConversationService.toMessage)) ∧
    (((convDb.filter (ConversationService.convPageCond userId status cursor)).length > k →
        (ConversationService.list convDb msgDb userId status k cursor).hasMore = true ∧
        (ConversationService.list convDb msgDb userId status k cursor).items.length = k ∧
        ∃ last, (ConversationService.list convDb msgDb userId status k cursor).items.getLast?
            = some last ∧
          (ConversationService.list convDb msgDb userId status k cursor).nextCursor =
            some last.id) ∧
     ((convDb.filter (ConversationService.convPageCond userId status cursor)).length ≤ k →
        (ConversationService.list convDb msgDb userId status k cursor).hasMore = false ∧
        (ConversationService.list convDb msgDb userId status k cursor).nextCursor = none ∧
        (ConversationService.list convDb msgDb userId status k cursor).items.length =
          (convDb.filter (ConversationService.convPageCond userId status cursor)).length)) := by
  constructor
  · intro res h
    simp only [ConversationService.getMessages] at h
    split at h
    · exact Except.noConfusion h
    · injection h with h
      subst h
      obtain ⟨hiff, hprops, hle⟩ := paginate_spec MsgRow.createdAt
        (msgDb.filter (ConversationService.msgPageCond conversationId cursor)) k hk
      set S := ConversationService.orderByDesc MsgRow.createdAt
        (msgDb.filter (ConversationService.msgPageCond conversationId cursor)) with hS
      constructor
      · intro hgt
        obtain ⟨hdrop, hlen, hne⟩ := hprops hgt
        have hasMoreTrue := hiff.mpr hgt
        have hitems : (if decide ((S.take (k + 1)).length > k) = true then
            (S.take (k + 1)).dropLast else S.take (k + 1)) = S.take k := by
          rw [hasMoreTrue]
          exact (if_pos rfl).trans hdrop
        obtain ⟨rl, hrl⟩ := Option.isSome_iff_exists.mp (List.getLast?_isSome.mpr hne)
        refine ⟨hasMoreTrue, ?_, ?_, ?_⟩
        · rw [hitems]
        · rw [hitems, List.length_map]
          exact hlen
        · refine ⟨ConversationService.toMessage rl, ?_, ?_⟩
          · rw [hitems, List.getLast?_map, hrl]
            rfl
          · rw [hasMoreTrue, if_pos rfl, hdrop, hrl]
            rfl
      · intro hley
        have hasMoreFalse : decide ((S.take (k + 1)).length > k) = false := by
          rw [← Bool.not_eq_true, hiff]
          omega
        refine ⟨hasMoreFalse, ?_, ?_⟩
        · rw [hasMoreFalse]
          rfl
        · rw [hasMoreFalse]
          exact congrArg (List.map ConversationService.toMessage) (hle hley)
  · simp only [ConversationService.list]
    obtain ⟨hiff, hprops, hle⟩ := paginate_spec ConvRow.createdAt
      (convDb.filter (ConversationService.convPageCond userId status cursor)) k hk
    set S := ConversationService.orderByDesc ConvRow.createdAt
      (convDb.filter (ConversationService.convPageCond userId status cursor)) with hS
    constructor
    · intro hgt
      obtain ⟨hdrop, hlen, hne⟩ := hprops hgt
      have hasMoreTrue := hiff.mpr hgt
      have hitems : (if decide ((S.take (k + 1)).length > k) = true then
          (S.take (k + 1)).dropLast else S.take (k + 1)) = S.take k := by
        rw [hasMoreTrue]
        exact (if_pos rfl).trans hdrop
      obtain ⟨rl, hrl⟩ := Option.isSome_iff_exists.mp (List.getLast?_isSome.mpr hne)
      refine ⟨hasMoreTrue, ?_, ?_⟩
      · rw [hitems, List.length_map]
        exact hlen
      · refine ⟨ConversationService.toSummary msgDb rl, ?_, ?_⟩
        · rw [hitems, List.getLast?_map, hrl]
          rfl
        · rw [hasMoreTrue, if_pos rfl, if_pos rfl, hdrop, hrl]
          rfl
    · intro hley
      have hasMoreFalse : decide ((S.take (k + 1)).length > k) = false := by
        rw [← Bool.not_eq_true, hiff]
        omega
      refine ⟨hasMoreFalse, ?_, ?_⟩
      · rw [hasMoreFalse]
        rfl
      · rw [hasMoreFalse]
        have := hle hley
        rw [List.length_map]
        rw [this]
        simp [hS, ConversationService.orderByDesc]

/-- Witness for C7: three matching messages paged with limit 2 give
`hasMore = true` and exactly 2 items; one matching conversation paged
with limit 2 gives `hasMore = false`. -/
theorem C7_pagination_contract_witness :
    sampleMsgPage.hasMore = true ∧ sampleMsgPage.items.length = 2 ∧
    (ConversationService.list sampleConvDb sampleMsgDb "u1" none 2 none).hasMore = false :=
  ⟨(((C7_pagination_contract sampleMsgDb sampleConvDb "c1" "u1" none 2 none
        (by decide)).1 sampleMsgPage rfl).1 (by decide)).1,
   (((C7_pagination_contract sampleMsgDb sampleConvDb "c1" "u1" none 2 none
        (by decide)).1 sampleMsgPage rfl).1 (by decide)).2.2.1,
   ((C7_pagination_contract sampleMsgDb sampleConvDb "c1" "u1" none 2 none
        (by decide)).2.2 (by decide)).1⟩

/-- Folding `dbInsert` appends the writes in order. -/
theorem foldl_dbInsert (writes : List MsgRow) (acc : List MsgRow) :
    writes.foldl ConversationService.dbInsert acc = acc ++ writes := by
  induction writes generalizing acc with
  | nil => simp
  | cons w t ih =>
    simp only [List.foldl_cons, ih, ConversationService.dbInsert,
      ConversationService.addMessage]
    simp

/-- Along a strictly-increasing key, equal keys mean equal elements. -/
theorem key_injective_of_strict (key : α → Nat) (l : List α)
    (h : l.Pairwise (fun a b => key a < key b)) :
    ∀ a ∈ l, ∀ b ∈ l, key a = key b → a = b := by
  induction l with
  | nil => simp
  | cons x t ih =>
    intro a ha b hb heq
    rw [List.pairwise_cons] at h
    rcases List.mem_cons.mp ha with rfl | ha2
    · rcases List.mem_cons.mp hb with rfl | hb2
      · rfl
      · have := h.1 b hb2
        omega
    · rcases List.mem_cons.mp hb with rfl | hb2
      · have := h.1 a ha2
        omega
      · exact ih h.2 a ha2 b hb2 heq

/-- Sorting a strictly-ascending list newest-first reverses it: the
descending sort is a permutation sorted by the key, and with pairwise
distinct keys that characterizes it uniquely. -/
theorem orderByDesc_of_strict_ascend (key : α → Nat) (l : List α)
    (h : l.Pairwise (fun a b => key a < key b)) :
    ConversationService.orderByDesc key l = l.reverse := by
  unfold ConversationService.orderByDesc
  refine List.Perm.eq_of_sorted ?_
    (List.sorted_mergeSort
      (fun a b c hab hbc => by
        simp only [decide_eq_true_eq] at *
        omega)
      (fun a b => by
        simp only [Bool.or_eq_true, decide_eq_true_eq]
        omega)
      l)
    ?_
    ((List.mergeSort_perm l _).trans (List.reverse_perm l).symm)
  · intro a b ha hb hab hba
    simp only [List.mem_mergeSort, List.mem_reverse] at ha hb
    simp only [decide_eq_true_eq] at hab hba
    exact key_injective_of_strict key l h a ha b hb (Nat.le_antisymm hba hab)
  · rw [List.pairwise_reverse]
    exact h.imp (fun hab => by
      simp only [decide_eq_true_eq]
      omega)

/-- C8: round-trip — messages written via `addMessage` with strictly
increasing creation times, read back through
`getRecentContext(conversationId, n)` with `n` at least the number of
messages written, come back in chronological (creation-time ascending)
order, i.e. exactly the written sequence: the newest-first fetch is
reversed before being returned. -/
theorem C8_getRecentContext_roundtrip (writes : List MsgRow) (conversationId : String) (n : Nat)
    (hcid : ∀ w ∈ writes, w.conversationId = conversationId)
    (hmono : writes.Pairwise (fun a b => a.createdAt < b.createdAt))
    (hn : writes.length ≤ n) :
    ConversationService.getRecentContext
      (writes.foldl ConversationService.dbInsert []) conversationId n =
      writes.map ConversationService.toMessage := by
  rw [foldl_dbInsert, List.nil_append]
  unfold ConversationService.getRecentContext
  have hfilter : writes.filter (fun m => m.conversationId == conversationId) = writes :=
    List.filter_eq_self.mpr (fun m hm => by simp [hcid m hm])
  rw [hfilter, orderByDesc_of_strict_ascend MsgRow.createdAt writes hmono,
    List.take_of_length_le (by simpa using hn), List.reverse_reverse]

/-- Witness for C8: the three concrete messages, inserted in order and
read back with `n = 10`, return in chronological order. -/
theorem C8_getRecentContext_roundtrip_witness :
    ConversationService.getRecentContext
      (sampleMsgDb.foldl ConversationService.dbInsert []) "c1" 10 =
      sampleMsgDb.map ConversationService.toMessage :=
  C8_getRecentContext_roundtrip sampleMsgDb "c1" 10 (by decide) (by decide) (by decide)

/-- Scores are non-negative. -/
theorem ScoredMemory.score_nonneg (s : MemoryRetrievalService.ScoredMemory) :
    0 ≤ MemoryRetrievalService.ScoredMemory.score s := by
  unfold MemoryRetrievalService.ScoredMemory.score
  positivity

/-- The integer comparator decides exactly the real-valued comparison
of `matchCount / √wordCount` (for the word counts `scoreMemory`
produces): cross-multiplying and squaring eliminates the square roots. -/
theorem scoreGeB_iff (a b : MemoryRetrievalService.ScoredMemory)
    (ha : 1 ≤ a.wordCount) (hb : 1 ≤ b.wordCount) :
    MemoryRetrievalService.scoreGeB a b = true ↔
      MemoryRetrievalService.ScoredMemory.score b ≤
        MemoryRetrievalService.ScoredMemory.score a := by
  unfold MemoryRetrievalService.scoreGeB MemoryRetrievalService.ScoredMemory.score
  rw [decide_eq_true_eq, Nat.max_eq_right ha, Nat.max_eq_right hb]
  have hA : (0 : ℝ) < Real.sqrt a.wordCount :=
    Real.sqrt_pos.mpr (by exact_mod_cast Nat.lt_of_lt_of_le Nat.zero_lt_one ha)
  have hB : (0 : ℝ) < Real.sqrt b.wordCount :=
    Real.sqrt_pos.mpr (by exact_mod_cast Nat.lt_of_lt_of_le Nat.zero_lt_one hb)
  rw [div_le_div_iff₀ hB hA]
  rw [show ((b.matchCount : ℝ) * Real.sqrt a.wordCount ≤
        (a.matchCount : ℝ) * Real.sqrt b.wordCount) ↔
      ((b.matchCount : ℝ) * Real.sqrt a.wordCount) *
          ((b.matchCount : ℝ) * Real.sqrt a.wordCount) ≤
        ((a.matchCount : ℝ) * Real.sqrt b.wordCount) *
          ((a.matchCount : ℝ) * Real.sqrt b.wordCount) from
    mul_self_le_mul_self_iff (by positivity) (by positivity)]
  have ea : Real.sqrt a.wordCount * Real.sqrt a.wordCount = (a.wordCount : ℝ) :=
    Real.mul_self_sqrt (by positivity)
  have eb : Real.sqrt b.wordCount * Real.sqrt b.wordCount = (b.wordCount : ℝ) :=
    Real.mul_self_sqrt (by positivity)
  constructor
  · intro h
    have hc : ((b.matchCount * b.matchCount * a.wordCount : ℕ) : ℝ) ≤
        ((a.matchCount * a.matchCount * b.wordCount : ℕ) : ℝ) := by exact_mod_cast h
    push_cast at hc
    nlinarith [hc, ea, eb]
  · intro h
    have hc : ((b.matchCount : ℝ) * b.matchCount * a.wordCount) ≤
        ((a.matchCount : ℝ) * a.matchCount * b.wordCount) := by nlinarith [h, ea, eb]
    exact_mod_cast hc

/-- The comparator is total. -/
theorem scoreGeB_total (a b : MemoryRetrievalService.ScoredMemory) :
    (MemoryRetrievalService.scoreGeB a b || MemoryRetrievalService.scoreGeB b a) = true := by
  unfold MemoryRetrievalService.scoreGeB
  simp only [Bool.or_eq_true, decide_eq_true_eq]
  omega

/-- The comparator is transitive. -/
theorem scoreGeB_trans (a b c : MemoryRetrievalService.ScoredMemory)
    (h1 : MemoryRetrievalService.scoreGeB a b = true)
    (h2 : MemoryRetrievalService.scoreGeB b c = true) :
    MemoryRetrievalService.scoreGeB a c = true := by
  unfold MemoryRetrievalService.scoreGeB at *
  simp only [decide_eq_true_eq] at *
  rcases Nat.eq_zero_or_pos b.matchCount with hb0 | hbpos
  · have hcm : c.matchCount * c.matchCount * max 1 b.wordCount = 0 :=
      Nat.le_zero.mp (by simpa [hb0] using h2)
    have hc0 : c.matchCount = 0 := by
      have hBpos : 1 ≤ max 1 b.wordCount := le_max_left 1 _
      rcases Nat.mul_eq_zero.mp hcm with h | h
      · rcases Nat.mul_eq_zero.mp h with h' | h'
        · exact h'
        · exact h'
      · omega
    simp [hc0]
  · have hmul := Nat.mul_le_mul h1 h2
    have h3 : (b.matchCount * b.matchCount * max 1 b.wordCount) *
        (c.matchCount * c.matchCount * max 1 a.wordCount) ≤
        (b.matchCount * b.matchCount * max 1 b.wordCount) *
        (a.matchCount * a.matchCount * max 1 c.wordCount) := by
      calc (b.matchCount * b.matchCount * max 1 b.wordCount) *
            (c.matchCount * c.matchCount * max 1 a.wordCount)
          = (b.matchCount * b.matchCount * max 1 a.wordCount) *
            (c.matchCount * c.matchCount * max 1 b.wordCount) := by ring
        _ ≤ (a.matchCount * a.matchCount * max 1 b.wordCount) *
            (b.matchCount * b.matchCount * max 1 c.wordCount) := hmul
        _ = (b.matchCount * b.matchCount * max 1 b.wordCount) *
            (a.matchCount * a.matchCount * max 1 c.wordCount) := by ring
    refine Nat.le_of_mul_le_mul_left h3 ?_
    have hBpos : 1 ≤ max 1 b.wordCount := le_max_left 1 _
    have := Nat.mul_pos hbpos hbpos
    exact Nat.mul_pos this (by omega)

/-- `scoreMemory` always records a positive word count (a JS
whitespace split never returns an empty array). -/
theorem scoreMemory_wordCount_pos (keywords : List String) (m : RetrievedMemory) :
    1 ≤ (MemoryRetrievalService.scoreMemory keywords m).wordCount := by
  unfold MemoryRetrievalService.scoreMemory
  simp only []
  split
  · next h => simpa using h
  · simp

/-- C6: `retrieveContext` scores each backend candidate as the number
of its words in the keyword set divided by the square root of its word
count, returns the candidates sorted descending by that real-valued
score — ties kept in input order (the sort is stable: any input pair
already in non-increasing score order stays a sublist of the output) —
truncated to the given limit (default 10); and on backend failure it
returns the empty list instead of propagating the error. -/
theorem C6_retrieveContext_ranking (backendMemories : Except String (List RetrievedMemory))
    (synthesisResult : SynthesisResult) (conversationContext : List Message)
    (limit : Option Nat) :
    (∀ e, backendMemories = .error e →
      MemoryRetrievalService.retrieveContext backendMemories synthesisResult
        conversationContext limit = []) ∧
    (∀ mems, backendMemories = .ok mems →
      ∃ ranked,
        MemoryRetrievalService.retrieveContext backendMemories synthesisResult
            conversationContext limit = ranked.take (limit.getD 10) ∧
        ranked.Perm (mems.map (MemoryRetrievalService.scoreMemory
          (MemoryRetrievalService.keywordsOf synthesisResult conversationContext))) ∧
        ranked.Pairwise (fun a b => MemoryRetrievalService.ScoredMemory.score b ≤
          MemoryRetrievalService.ScoredMemory.score a) ∧
        (∀ a b, [a, b].Sublist (mems.map (MemoryRetrievalService.scoreMemory
            (MemoryRetrievalService.keywordsOf synthesisResult conversationContext))) →
          MemoryRetrievalService.ScoredMemory.score b ≤
            MemoryRetrievalService.ScoredMemory.score a →
          [a, b].Sublist ranked)) := by
  constructor
  · intro e he
    simp [MemoryRetrievalService.retrieveContext, he]
  · intro mems hok
    set kw := MemoryRetrievalService.keywordsOf synthesisResult conversationContext with hkw
    set scored := mems.map (MemoryRetrievalService.scoreMemory kw) with hscored
    have hwc : ∀ s ∈ scored, 1 ≤ s.wordCount := by
      intro s hs
      rw [hscored] at hs
      obtain ⟨y, -, rfl⟩ := List.mem_map.mp hs
      exact scoreMemory_wordCount_pos kw y
    refine ⟨scored.mergeSort MemoryRetrievalService.scoreGeB, ?_, ?_, ?_, ?_⟩
    · simp [MemoryRetrievalService.retrieveContext, MemoryRetrievalService.rankMemories, hok]
    · exact List.mergeSort_perm scored _
    · have hp := List.sorted_mergeSort scoreGeB_trans scoreGeB_total scored
      refine hp.imp_of_mem ?_
      intro a b hma hmb hab
      have hma' := List.mem_mergeSort.mp hma
      have hmb' := List.mem_mergeSort.mp hmb
      exact (scoreGeB_iff a b (hwc a hma') (hwc b hmb')).mp hab
    · intro a b hsub hscore
      have hma : a ∈ scored := hsub.subset (by simp)
      have hmb : b ∈ scored := hsub.subset (by simp)
      exact List.pair_sublist_mergeSort scoreGeB_trans scoreGeB_total
        ((scoreGeB_iff a b (hwc a hma) (hwc b hmb)).mpr hscore) hsub

/-- Witness for C6: a concrete backend failure yields the empty list. -/
theorem C6_retrieveContext_ranking_witness :
    MemoryRetrievalService.retrieveContext (Except.error "backend down")
      sampleEventSynthesis [] none = ([] : List MemoryRetrievalService.ScoredMemory) :=
  (C6_retrieveContext_ranking (Except.error "backend down")
    sampleEventSynthesis [] none).1 "backend down" rfl
